import Mathlib

/-!
Verification development for the Louvre DDV availability scanner
(src/ddv_ready.py).  The Python source is shallowly embedded: JSON values
become an inductive type, the HTTP layer becomes an explicit wire-result
parameter, the retry-until-deadline loop becomes a fuel-indexed recursion
(fuel = number of attempts the wall clock admits), and Python exceptions
become Except.  Streamlit UI calls are presentation-only side effects and
are not part of the embedded state.
-/

namespace Ddv

/-- JSON values as delivered by the provider API (numbers restricted to
integers, which is all the provider emits in the scanned fields). -/
inductive Json where
  | null : Json
  | bool : Bool → Json
  | num : Int → Json
  | str : String → Json
  | arr : List Json → Json
  | obj : List (String × Json) → Json

/-- Python truthiness of a value: None, False, 0, empty string, empty list
and empty dict are falsy. -/
def truthy : Json → Bool
  | Json.null => false
  | Json.bool b => b
  | Json.num n => n != 0
  | Json.str s => s ≠ ""
  | Json.arr xs => !xs.isEmpty
  | Json.obj kvs => !kvs.isEmpty

/-- Lookup of a key in an object; none for absent keys or non-objects. -/
def Json.find? : Json → String → Option Json
  | Json.obj kvs, k => (kvs.find? (fun kv => kv.1 = k)).map (fun kv => kv.2)
  | _, _ => none

/-- dict.get with a default, on a value already known to be a dict. -/
def Json.getD (j : Json) (k : String) (dflt : Json) : Json :=
  match j.find? k with
  | some v => v
  | none => dflt

/-- Python `k in data` membership test for dict values. -/
def hasKey (j : Json) (k : String) : Bool :=
  match j with
  | Json.obj kvs => kvs.any (fun kv => kv.1 = k)
  | _ => false

/-- x.get(k, dflt): attribute error when x is not a dict. -/
def dictGet (j : Json) (k : String) (dflt : Json) : Except String Json :=
  match j with
  | Json.obj _ => Except.ok (j.getD k dflt)
  | _ => Except.error "AttributeError"

/-- str(v) for the value kinds that reach str() in the embedded code
(slot-time values and error payloads; containers get a coarse rendering,
they do not occur as slot times in the provider contract). -/
def pyStr : Json → String
  | Json.null => "None"
  | Json.bool true => "True"
  | Json.bool false => "False"
  | Json.num n => toString n
  | Json.str s => s
  | Json.arr _ => "[...]"
  | Json.obj _ => "dict"

/-- `x or []` : keep x when truthy, else the empty list. -/
def orEmptyList (j : Json) : Json :=
  if truthy j then j else Json.arr []

/-- Iterating a value with element lookups: only a list works; iterating
any other value either raises at the for statement or at the first
element access, folded into one error here. -/
def iterList : Json → Except String (List Json)
  | Json.arr xs => Except.ok xs
  | _ => Except.error "TypeError"

/-! ### Date parsing and weekday derivation (datetime.strptime + weekday) -/

/-- Split a character list on a separator, keeping empty chunks,
like str.split with an explicit separator. -/
def splitOnChar (sep : Char) : List Char → List (List Char)
  | [] => [[]]
  | c :: cs =>
    let r := splitOnChar sep cs
    if c = sep then [] :: r
    else
      match r with
      | h :: t => (c :: h) :: t
      | [] => [[c]]

/-- Numeric value of a digit list. -/
def natOfDigits (cs : List Char) : Nat :=
  cs.foldl (fun a c => a * 10 + (c.toNat - 48)) 0

def isLeap (y : Nat) : Bool :=
  (y % 4 = 0 && y % 100 ≠ 0) || y % 400 = 0

def daysInMonth (y m : Nat) : Nat :=
  if m = 2 then (if isLeap y then 29 else 28)
  else if m = 4 || m = 6 || m = 9 || m = 11 then 30
  else 31

/-- datetime.strptime(s, "%Y-%m-%d"): three dash-separated digit groups
(year up to four digits, month and day up to two), validated as a real
proleptic-Gregorian calendar date with year at least 1; failure models
the ValueError strptime raises. -/
def parseYMD (s : String) : Option (Nat × Nat × Nat) :=
  match splitOnChar '-' s.data with
  | [ys, ms, ds] =>
    if (!ys.isEmpty && ys.all Char.isDigit && ys.length ≤ 4)
        && (!ms.isEmpty && ms.all Char.isDigit && ms.length ≤ 2)
        && (!ds.isEmpty && ds.all Char.isDigit && ds.length ≤ 2) then
      let y := natOfDigits ys
      let m := natOfDigits ms
      let d := natOfDigits ds
      if 1 ≤ y && 1 ≤ m && m ≤ 12 && 1 ≤ d && d ≤ daysInMonth y m then
        some (y, m, d)
      else none
    else none
  | _ => none

def sakamotoOffsets : List Nat := [0, 3, 2, 5, 0, 3, 5, 1, 4, 6, 2, 4]

/-- date(y, m, d).weekday(): 0 = Monday .. 6 = Sunday, via the Sakamoto
day-of-week congruence shifted from its Sunday-based count. -/
def pyWeekday (y m d : Nat) : Nat :=
  let y2 := if m < 3 then y - 1 else y
  let t := sakamotoOffsets.getD (m - 1) 0
  (y2 + y2 / 4 - y2 / 100 + y2 / 400 + t + d + 6) % 7

/-- TARGET_WEEKDAYS from the source: Monday, Wednesday, Friday, Sunday. -/
def TARGET_WEEKDAYS : List Nat := [0, 2, 4, 6]

/-! ### HTTP transport (make_client / api_post) -/

/-- Header set installed by make_client; fixed for the whole client,
never varied per request. -/
def clientHeaders : List (String × String) :=
  [("User-Agent", "Mozilla/5.0"),
   ("Accept", "application/json, text/plain, */*"),
   ("Content-Type", "application/x-www-form-urlencoded; charset=UTF-8"),
   ("Origin", "https://www.ticketlouvre.fr"),
   ("Referer", "https://www.ticketlouvre.fr/")]

/-- DDV_CONFIG from the source. -/
def DDV_CONFIG : List (String × String) :=
  [("eventCode", "GA"),
   ("performanceId", "720553"),
   ("performanceAk", "LVR.EVN21.PRF116669"),
   ("priceTableId", "1")]

/-- What one HTTP POST can come back with: a response, or a transport
exception (connection error, timeout, ...). -/
structure HttpResponse where
  status : Nat
  /-- Result of r.json() when it parses, none when it raises. -/
  jsonBody : Option Json
  /-- Result of json.loads(r.text) when it parses, none when it raises. -/
  textBody : Option Json

inductive WireResult where
  | resp : HttpResponse → WireResult
  | netError : String → WireResult

/-- The sentinel dict api_post builds in its except branch. -/
def errObj (msg : String) (form : List (String × String)) : Json :=
  Json.obj [("__error__", Json.str msg),
            ("__form__", Json.obj (form.map (fun kv => (kv.1, Json.str kv.2))))]

/-- Message of the exception raise_for_status throws for a 4xx/5xx status. -/
def statusErrMsg (status : Nat) : String :=
  "HTTP status " ++ toString status

/-- api_post on one wire interaction: raise_for_status turns status >= 400
into an exception; the body is parsed by r.json, then by a raw-text parse;
every exception is caught and returned as the error-sentinel dict. -/
def apiPostCore (w : WireResult) (form : List (String × String)) : Json :=
  match w with
  | WireResult.netError msg => errObj msg form
  | WireResult.resp r =>
    if 400 ≤ r.status then errObj (statusErrMsg r.status) form
    else
      match r.jsonBody with
      | some j => j
      | none =>
        match r.textBody with
        | some j => j
        | none => errObj "JSONDecodeError" form

/-- api_post against a server that would answer successive POSTs with
wires 0, wires 1, ...; returns the result together with the number of
POSTs actually issued.  The source performs exactly one client.post call
per api_post invocation, so only wires 0 is ever consumed. -/
def apiPost (wires : Nat → WireResult) (form : List (String × String)) :
    Json × Nat :=
  (apiPostCore (wires 0) form, 1)

/-! ### Availability prober (fetch_timeslots_with_retry) -/

/-- The slot-time field alias chain of one product:
p.get("time") or p.get("startTime") or p.get("start_time"). -/
def getTime (p : Json) : Json :=
  let a := p.getD "time" Json.null
  if truthy a then a
  else
    let b := p.getD "startTime" Json.null
    if truthy b then b
    else p.getD "start_time" Json.null

/-- The time-collection loop over the product list: append str(t) for
each product whose alias chain yields a truthy value; element access on
a non-dict product raises. -/
def collectTimes : List Json → Except String (List String)
  | [] => Except.ok []
  | p :: ps =>
    match p with
    | Json.obj _ => do
      let rest ← collectTimes ps
      let t := getTime p
      if truthy t then Except.ok (pyStr t :: rest) else Except.ok rest
    | _ => Except.error "AttributeError"

/-- data.get("api", ...).get("result", ...).get("product", []) or [],
then the collection loop. -/
def extractTimes (data : Json) : Except String (List String) := do
  let a ← dictGet data "api" (Json.obj [])
  let r ← dictGet a "result" (Json.obj [])
  let p ← dictGet r "product" (Json.arr [])
  let products ← iterList (orEmptyList p)
  collectTimes products

/-- Lexicographic strict order on code-point lists, as Python compares
strings. -/
def lexLt : List Char → List Char → Bool
  | [], [] => false
  | [], _ :: _ => true
  | _ :: _, [] => false
  | a :: as, b :: bs =>
    if a < b then true else if b < a then false else lexLt as bs

/-- Python string comparison. -/
def strLt (a b : String) : Bool := lexLt a.data b.data

/-- Stable ascending insertion preserving earlier equal elements. -/
def insertLe (x : String) : List String → List String
  | [] => [x]
  | y :: ys => if strLt y x then y :: insertLe x ys else x :: y :: ys

/-- sorted(times) for string lists: ascending lexicographic order. -/
def pySorted (l : List String) : List String :=
  l.foldr insertLe []

/-- One body of the retry loop, on the dict api_post returned: the
error-sentinel check re-raises the recorded reason, otherwise the slot
times are extracted and sorted; any exception becomes the recorded
last-error string. -/
def attemptOnce (data : Json) : Except String (List String) :=
  match data with
  | Json.obj _ =>
    if hasKey data "__error__" then
      Except.error (pyStr (data.getD "__error__" Json.null))
    else (extractTimes data).map pySorted
  | _ => Except.error "TypeError"

/-- last_error or "timeout" at deadline expiry. -/
def timeoutMsg : Option String → String
  | some s => if s = "" then "timeout" else s
  | none => "timeout"

/-- The while-deadline loop, with the remaining wall-clock budget
abstracted into a fuel of admitted attempts; also counts the attempts
performed.  resp k is the api_post result of attempt number k. -/
def probeLoopAux (resp : Nat → Json) (dateStr : String) :
    Nat → Nat → Option String → (String × List String × Option String) × Nat
  | 0, k, lastErr => ((dateStr, [], some (timeoutMsg lastErr)), k)
  | fuel + 1, k, _lastErr =>
    match attemptOnce (resp k) with
    | Except.ok ts => ((dateStr, ts, none), k + 1)
    | Except.error e => probeLoopAux resp dateStr fuel (k + 1) (some e)

/-- fetch_timeslots_with_retry: the triple (date, slot times, error). -/
def fetchTimeslotsWithRetry (resp : Nat → Json) (dateStr : String)
    (fuel : Nat) : String × List String × Option String :=
  (probeLoopAux resp dateStr fuel 0 none).1

/-- Number of api_post attempts the probe actually performed. -/
def probeAttempts (resp : Nat → Json) (dateStr : String) (fuel : Nat) : Nat :=
  (probeLoopAux resp dateStr fuel 0 none).2

/-! ### Date enumerator (fetch_date_list) and orchestrator (scan_month) -/

def pad2 (n : Nat) : String :=
  if n < 10 then "0" ++ toString n else toString n

def pad4 (n : Nat) : String :=
  if n < 10 then "000" ++ toString n
  else if n < 100 then "00" ++ toString n
  else if n < 1000 then "0" ++ toString n
  else toString n

/-- datetime(year, month, 1).strftime("%Y-%m-%d"). -/
def monthStart (year month : Nat) : String :=
  pad4 year ++ "-" ++ pad2 month ++ "-01"

/-- The form sent for the date.list.nt request. -/
def dateListForm (cfg : List (String × String)) (month year : Nat) :
    List (String × String) :=
  ("eventName", "date.list.nt") :: ("dateFrom", monthStart year month) :: cfg

/-- The form sent for the ticket.list request of one date. -/
def ticketListForm (cfg : List (String × String)) (dateStr : String) :
    List (String × String) :=
  ("eventName", "ticket.list") :: ("dateFrom", dateStr) :: cfg

/-- fetch_date_list: api_post, then
data.get("api", ...).get("result", ...).get("date", []) or [],
returned together with the raw response. -/
def fetchDateList (w : WireResult) (cfg : List (String × String))
    (month year : Nat) : Except String (Json × Json) := do
  let data := apiPostCore w (dateListForm cfg month year)
  let a ← dictGet data "api" (Json.obj [])
  let r ← dictGet a "result" (Json.obj [])
  let d ← dictGet r "date" (Json.arr [])
  Except.ok (orEmptyList d, data)

/-- The date_strs loop of scan_month: for each element take d.get("date"),
skip falsy values, parse the string with strptime and keep the date when
its weekday is in TARGET_WEEKDAYS; element access on a non-dict raises,
as do a non-string or unparsable date value. -/
def candidateDates : List Json → Except String (List String)
  | [] => Except.ok []
  | d :: ds => do
    match d with
    | Json.obj _ =>
      let dsv := d.getD "date" Json.null
      if truthy dsv then
        match dsv with
        | Json.str s =>
          match parseYMD s with
          | some ymd =>
            let rest ← candidateDates ds
            if pyWeekday ymd.1 ymd.2.1 ymd.2.2 ∈ TARGET_WEEKDAYS then
              Except.ok (s :: rest)
            else Except.ok rest
          | none => Except.error "ValueError"
        | _ => Except.error "TypeError"
      else candidateDates ds
    | _ => Except.error "AttributeError"

/-- The provider as the scan sees it: one wire answer for the date-list
request and one wire answer per date and per probe attempt. -/
structure Provider where
  dateListWire : WireResult
  probeWire : String → Nat → WireResult

/-- The api_post results a probe of one date sees, attempt by attempt. -/
def respFor (prov : Provider) (cfg : List (String × String))
    (dateStr : String) : Nat → Json :=
  fun k => apiPostCore (prov.probeWire dateStr k) (ticketListForm cfg dateStr)

/-- The normalized list the date_strs loop iterates over. -/
def datesOf (prov : Provider) (cfg : List (String × String))
    (month year : Nat) : Except String (List Json) := do
  let dl ← fetchDateList prov.dateListWire cfg month year
  iterList dl.1

/-- The candidate dates date_strs of one scan. -/
def dateStrsOf (prov : Provider) (cfg : List (String × String))
    (month year : Nat) : Except String (List String) := do
  let ds ← datesOf prov cfg month year
  candidateDates ds

/-- Python dict insertion: overwrite in place when the key exists,
append otherwise. -/
def dictInsert (m : List (String × α)) (k : String) (v : α) :
    List (String × α) :=
  if m.any (fun kv => kv.1 = k) then
    m.map (fun kv => if kv.1 = k then (k, v) else kv)
  else m ++ [(k, v)]

/-- A dict comprehension over a pair list. -/
def buildDict (l : List (String × α)) : List (String × α) :=
  l.foldl (fun m kv => dictInsert m kv.1 kv.2) []

/-- Key sequence a Python dict built from these keys ends up with:
first-occurrence order, duplicates collapsed. -/
def pyKeys (ks : List String) : List String :=
  ks.foldl (fun acc k => if k ∈ acc then acc else acc ++ [k]) []

/-- scan_month including its diagnostics: the data dict (date to sorted
slot times) and the errors dict the source builds at line 119 and shows
in the debug expander.  The gather keeps task order, so results line up
with date_strs. -/
def scanMonthWithDiag (prov : Provider) (cfg : List (String × String))
    (month year fuel : Nat) :
    Except String (List (String × List String) × List (String × String)) := do
  let dateStrs ← dateStrsOf prov cfg month year
  let results := dateStrs.map
    (fun ds => fetchTimeslotsWithRetry (respFor prov cfg ds) ds fuel)
  let data := buildDict (results.map (fun r => (r.1, r.2.1)))
  let errors := buildDict (results.filterMap (fun r =>
    match r.2.2 with
    | some e => if e = "" then none else some (r.1, e)
    | none => none))
  Except.ok (data, errors)

/-- scan_month as the caller sees it: only the data dict is returned. -/
def scanMonth (prov : Provider) (cfg : List (String × String))
    (month year fuel : Nat) : Except String (List (String × List String)) :=
  (scanMonthWithDiag prov cfg month year fuel).map (fun r => r.1)

/-- The probe triple of one date inside a scan. -/
def probeResult (prov : Provider) (cfg : List (String × String))
    (fuel : Nat) (dateStr : String) : String × List String × Option String :=
  fetchTimeslotsWithRetry (respFor prov cfg dateStr) dateStr fuel

def probeTs (prov : Provider) (cfg : List (String × String))
    (fuel : Nat) (dateStr : String) : List String :=
  (probeResult prov cfg fuel dateStr).2.1

def probeErr (prov : Provider) (cfg : List (String × String))
    (fuel : Nat) (dateStr : String) : Option String :=
  (probeResult prov cfg fuel dateStr).2.2

end Ddv

namespace Ddv

/-- Scenario B ticket.list payload. -/
def scenBJson : Json :=
  Json.obj [("api", Json.obj [("result", Json.obj [("product", Json.arr
    [Json.obj [("time", Json.str "09:00"), ("available", Json.num 2)],
     Json.obj [("time", Json.str "10:00"), ("available", Json.num 0)]])])])]

def provB : Provider :=
  { dateListWire := WireResult.netError "x",
    probeWire := fun _ _ =>
      WireResult.resp { status := 200, jsonBody := some scenBJson, textBody := none } }

def prov500 : Provider :=
  { dateListWire := WireResult.resp { status := 500, jsonBody := none, textBody := none },
    probeWire := fun _ _ => WireResult.netError "x" }

def provEmptyDates : Provider :=
  { dateListWire := WireResult.resp
      { status := 200,
        jsonBody := some (Json.obj [("api", Json.obj [("result",
          Json.obj [("date", Json.arr [])])])]),
        textBody := none },
    probeWire := fun _ _ => WireResult.netError "x" }

def provBareDates : Provider :=
  { dateListWire := WireResult.resp
      { status := 200,
        jsonBody := some (Json.obj [("api", Json.obj [("result",
          Json.obj [("date", Json.arr [Json.str "2025-03-03", Json.str "2025-03-05"])])])]),
        textBody := none },
    probeWire := fun _ _ => WireResult.netError "x" }

def mkDateObj (s : String) : Json := Json.obj [("date", Json.str s)]

def provDup : Provider :=
  { dateListWire := WireResult.resp
      { status := 200,
        jsonBody := some (Json.obj [("api", Json.obj [("result",
          Json.obj [("date", Json.arr
            [mkDateObj "2025-03-05", mkDateObj "2025-03-03", mkDateObj "2025-03-03"])])])]),
        textBody := none },
    probeWire := fun _ _ =>
      WireResult.resp { status := 200, jsonBody := some scenBJson, textBody := none } }

/-- Replace (or add) one field of an object, leaving any other value
untouched; used to state that a field plays no role in a computation. -/
def setField (k : String) (v : Json) : Json → Json
  | Json.obj kvs =>
    Json.obj (if kvs.any (fun kv => kv.1 = k) then
        kvs.map (fun kv => if kv.1 = k then (k, v) else kv)
      else kvs ++ [(k, v)])
  | j => j

/-! ### Further concrete providers used in the claim instances -/

/-- A ticket.list payload with an empty product list. -/
def emptyProductJson : Json :=
  Json.obj [("api", Json.obj [("result", Json.obj [("product", Json.arr [])])])]

/-- Active dates in the object-list shape, with zero-slot probes. -/
def provObjDates : Provider :=
  { dateListWire := WireResult.resp
      { status := 200,
        jsonBody := some (Json.obj [("api", Json.obj [("result",
          Json.obj [("date", Json.arr [mkDateObj "2025-03-03", mkDateObj "2025-03-05"])])])]),
        textBody := none },
    probeWire := fun _ _ =>
      WireResult.resp { status := 200, jsonBody := some emptyProductJson, textBody := none } }

/-- One active date whose probe is rejected with 403 on every attempt. -/
def provTimeout : Provider :=
  { dateListWire := WireResult.resp
      { status := 200,
        jsonBody := some (Json.obj [("api", Json.obj [("result",
          Json.obj [("date", Json.arr [mkDateObj "2025-03-03"])])])]),
        textBody := none },
    probeWire := fun _ _ =>
      WireResult.resp { status := 403, jsonBody := none, textBody := none } }

/-- Attempt results for a probe that fails once, then succeeds with an
empty slot list. -/
def c5resp : Nat → Json := fun n =>
  if n = 0 then errObj "boom" (ticketListForm DDV_CONFIG "2025-03-04")
  else emptyProductJson

/-- A server that would reject the first POST with 403 and accept a
second one. -/
def c3wires : Nat → WireResult := fun n =>
  if n = 0 then WireResult.resp { status := 403, jsonBody := none, textBody := none }
  else WireResult.resp { status := 200, jsonBody := some scenBJson, textBody := none }

/-! ### Probe loop lemmas -/

theorem timeoutMsg_ne_empty (o : Option String) : timeoutMsg o ≠ "" := by
  match o with
  | none => simp [timeoutMsg]
  | some s =>
    simp only [timeoutMsg]
    by_cases h : s = "" <;> simp [h]

theorem probeLoopAux_fst (resp : Nat → Json) (ds : String) :
    ∀ fuel k le, ((probeLoopAux resp ds fuel k le).1).1 = ds := by
  intro fuel
  induction fuel with
  | zero => intro k le; rfl
  | succ n ih =>
    intro k le
    simp only [probeLoopAux]
    cases h : attemptOnce (resp k) with
    | ok ts => rfl
    | error e => exact ih (k + 1) (some e)

theorem probeLoopAux_err_times (resp : Nat → Json) (ds : String) :
    ∀ fuel k le, (probeLoopAux resp ds fuel k le).1.2.2 ≠ none →
      (probeLoopAux resp ds fuel k le).1.2.1 = [] := by
  intro fuel
  induction fuel with
  | zero => intro k le _; rfl
  | succ n ih =>
    intro k le h
    cases hc : attemptOnce (resp k) with
    | ok ts =>
      simp only [probeLoopAux, hc] at h
      exact absurd rfl h
    | error e =>
      simp only [probeLoopAux, hc] at h ⊢
      exact ih (k + 1) (some e) h

theorem probeLoopAux_err_ne_empty (resp : Nat → Json) (ds : String) :
    ∀ fuel k le e, (probeLoopAux resp ds fuel k le).1.2.2 = some e → e ≠ "" := by
  intro fuel
  induction fuel with
  | zero =>
    intro k le e h
    simp only [probeLoopAux] at h
    cases h
    exact timeoutMsg_ne_empty le
  | succ n ih =>
    intro k le e h
    cases hc : attemptOnce (resp k) with
    | ok ts =>
      simp only [probeLoopAux, hc] at h
      exact Option.noConfusion h
    | error e2 =>
      simp only [probeLoopAux, hc] at h
      exact ih (k + 1) (some e2) e h

theorem probeLoopAux_first_success (resp : Nat → Json) (ds : String)
    (ts : List String) :
    ∀ j fuel k le, j < fuel →
      (∀ i, i < j → ∃ e, attemptOnce (resp (k + i)) = Except.error e) →
      attemptOnce (resp (k + j)) = Except.ok ts →
      probeLoopAux resp ds fuel k le = ((ds, ts, none), k + j + 1) := by
  intro j
  induction j with
  | zero =>
    intro fuel k le hj _ hsucc
    match fuel, hj with
    | n + 1, _ =>
      simp only [probeLoopAux]
      rw [show k + 0 = k from rfl] at hsucc
      rw [hsucc]
  | succ j ih =>
    intro fuel k le hj hfail hsucc
    match fuel, hj with
    | n + 1, hj =>
      obtain ⟨e, he⟩ := hfail 0 (Nat.succ_pos j)
      rw [show k + 0 = k from rfl] at he
      simp only [probeLoopAux, he]
      have hfail2 : ∀ i, i < j → ∃ e2, attemptOnce (resp (k + 1 + i)) = Except.error e2 := by
        intro i hi
        have := hfail (i + 1) (Nat.succ_lt_succ hi)
        rwa [show k + (i + 1) = k + 1 + i by omega] at this
      have hsucc2 : attemptOnce (resp (k + 1 + j)) = Except.ok ts := by
        rwa [show k + (j + 1) = k + 1 + j by omega] at hsucc
      have hr := ih n (k + 1) (some e) (Nat.lt_of_succ_lt_succ hj) hfail2 hsucc2
      rw [hr]
      have : k + 1 + j + 1 = k + (j + 1) + 1 := by omega
      rw [this]

theorem probeLoopAux_none_iff (resp : Nat → Json) (ds : String) :
    ∀ fuel k le, (probeLoopAux resp ds fuel k le).1.2.2 = none ↔
      ∃ i, i < fuel ∧ ∃ ts, attemptOnce (resp (k + i)) = Except.ok ts := by
  intro fuel
  induction fuel with
  | zero =>
    intro k le
    simp [probeLoopAux]
  | succ n ih =>
    intro k le
    simp only [probeLoopAux]
    cases hc : attemptOnce (resp k) with
    | ok ts =>
      simp only [hc]
      constructor
      · intro _
        exact ⟨0, Nat.succ_pos n, ts, by rw [show k + 0 = k from rfl]; exact hc⟩
      · intro _; trivial
    | error e =>
      simp only [hc]
      rw [ih (k + 1) (some e)]
      constructor
      · rintro ⟨i, hi, ts, hts⟩
        refine ⟨i + 1, Nat.succ_lt_succ hi, ts, ?_⟩
        rwa [show k + (i + 1) = k + 1 + i by omega]
      · rintro ⟨i, hi, ts, hts⟩
        match i with
        | 0 =>
          rw [show k + 0 = k from rfl] at hts
          rw [hc] at hts
          cases hts
        | i + 1 =>
          refine ⟨i, Nat.lt_of_succ_lt_succ hi, ts, ?_⟩
          rwa [show k + (i + 1) = k + 1 + i by omega] at hts

/-! ### Dict building lemmas -/

theorem mem_map_fst_iff_any {α : Type} (m : List (String × α)) (k : String) :
    k ∈ m.map (fun kv => kv.1) ↔ m.any (fun kv => kv.1 = k) = true := by
  simp [List.any_eq_true, List.mem_map]

theorem dictInsert_map_fst {α : Type} (m : List (String × α)) (k : String) (v : α) :
    (dictInsert m k v).map (fun kv => kv.1) =
      if k ∈ m.map (fun kv => kv.1) then m.map (fun kv => kv.1)
      else m.map (fun kv => kv.1) ++ [k] := by
  unfold dictInsert
  by_cases h : k ∈ m.map (fun kv => kv.1)
  · rw [if_pos ((mem_map_fst_iff_any m k).1 h), if_pos h, List.map_map]
    congr 1
    funext kv
    by_cases hk : kv.1 = k
    · simp [Function.comp, hk]
    · simp [Function.comp, hk]
  · rw [if_neg (fun hh => h ((mem_map_fst_iff_any m k).2 hh)), if_neg h]
    simp

theorem foldl_dictInsert_map_fst {α : Type} :
    ∀ (l acc : List (String × α)),
      ((l.foldl (fun m kv => dictInsert m kv.1 kv.2) acc).map (fun kv => kv.1)) =
        (l.map (fun kv => kv.1)).foldl
          (fun ks k => if k ∈ ks then ks else ks ++ [k])
          (acc.map (fun kv => kv.1)) := by
  intro l
  induction l with
  | nil => intro acc; rfl
  | cons kv l ih =>
    intro acc
    simp only [List.foldl_cons, List.map_cons]
    rw [ih, dictInsert_map_fst]

theorem buildDict_map_fst {α : Type} (l : List (String × α)) :
    (buildDict l).map (fun kv => kv.1) = pyKeys (l.map (fun kv => kv.1)) := by
  unfold buildDict pyKeys
  have := foldl_dictInsert_map_fst l []
  simpa using this

theorem mem_foldl_keyStep :
    ∀ (ks acc : List String) (k : String),
      k ∈ ks.foldl (fun a x => if x ∈ a then a else a ++ [x]) acc ↔
        k ∈ acc ∨ k ∈ ks := by
  intro ks
  induction ks with
  | nil => intro acc k; simp
  | cons x ks ih =>
    intro acc k
    simp only [List.foldl_cons]
    rw [ih]
    by_cases hx : x ∈ acc
    · rw [if_pos hx]
      simp only [List.mem_cons]
      constructor
      · rintro (h | h)
        · exact Or.inl h
        · exact Or.inr (Or.inr h)
      · rintro (h | h | h)
        · exact Or.inl h
        · exact Or.inl (h ▸ hx)
        · exact Or.inr h
    · rw [if_neg hx]
      simp only [List.mem_append, List.mem_singleton, List.mem_cons]
      tauto

theorem mem_pyKeys (ks : List String) (k : String) : k ∈ pyKeys ks ↔ k ∈ ks := by
  unfold pyKeys
  rw [mem_foldl_keyStep]
  simp

theorem buildDict_mem_keys {α : Type} (l : List (String × α)) (k : String) :
    k ∈ (buildDict l).map (fun kv => kv.1) ↔ k ∈ l.map (fun kv => kv.1) := by
  rw [buildDict_map_fst, mem_pyKeys]

theorem dictInsert_mem {α : Type} (m : List (String × α)) (k : String) (v : α)
    (kv : String × α) : kv ∈ dictInsert m k v → kv = (k, v) ∨ kv ∈ m := by
  unfold dictInsert
  by_cases h : m.any (fun p => p.1 = k) = true
  · rw [if_pos h]
    intro hm
    obtain ⟨p, hp, hpe⟩ := List.mem_map.1 hm
    by_cases hk : p.1 = k
    · rw [if_pos hk] at hpe; exact Or.inl hpe.symm
    · rw [if_neg hk] at hpe; exact Or.inr (hpe ▸ hp)
  · rw [if_neg h]
    intro hm
    rcases List.mem_append.1 hm with hh | hh
    · exact Or.inr hh
    · exact Or.inl (List.mem_singleton.1 hh)

theorem foldl_dictInsert_entries {α : Type} (f : String → α) :
    ∀ (l acc : List (String × α)),
      (∀ kv ∈ acc, kv.2 = f kv.1) → (∀ kv ∈ l, kv.2 = f kv.1) →
      ∀ kv ∈ l.foldl (fun m p => dictInsert m p.1 p.2) acc, kv.2 = f kv.1 := by
  intro l
  induction l with
  | nil => intro acc ha _ kv hm; exact ha kv hm
  | cons p l ih =>
    intro acc ha hl kv hm
    simp only [List.foldl_cons] at hm
    refine ih (dictInsert acc p.1 p.2) ?_ (fun q hq => hl q (List.mem_cons_of_mem p hq)) kv hm
    intro q hq
    rcases dictInsert_mem acc p.1 p.2 q hq with h | h
    · rw [h]; exact hl p (List.mem_cons_self p l)
    · exact ha q h

theorem buildDict_mem_fun {α : Type} (f : String → α) (l : List (String × α))
    (hl : ∀ kv ∈ l, kv.2 = f kv.1) (k : String)
    (hk : k ∈ l.map (fun kv => kv.1)) : (k, f k) ∈ buildDict l := by
  have hkeys : k ∈ (buildDict l).map (fun kv => kv.1) :=
    (buildDict_mem_keys l k).2 hk
  obtain ⟨kv, hkv, hfst⟩ := List.mem_map.1 hkeys
  have h2 : kv.2 = f kv.1 := foldl_dictInsert_entries f l [] (by simp) hl kv hkv
  have h3 : kv = (k, f k) := by
    cases kv with
    | mk a b =>
      simp only at hfst h2
      rw [hfst] at h2 ⊢
      rw [h2]
  rw [← h3]
  exact hkv

/-! ### Enumeration lemmas -/

theorem find?_eq_of_truthy_getD (j : Json) (k : String)
    (ht : truthy (Json.getD j k Json.null) = true) :
    Json.find? j k = some (Json.getD j k Json.null) := by
  unfold Json.getD at ht ⊢
  cases hf : Json.find? j k with
  | none =>
    rw [hf] at ht
    simp [truthy] at ht
  | some v => rfl

theorem candidateDates_mem :
    ∀ (djs : List Json) (l : List String), candidateDates djs = Except.ok l →
      ∀ s ∈ l,
        (∃ y m d, parseYMD s = some (y, m, d) ∧
          pyWeekday y m d ∈ TARGET_WEEKDAYS) ∧
        ∃ j ∈ djs, Json.find? j "date" = some (Json.str s) := by
  intro djs
  induction djs with
  | nil =>
    intro l h s hs
    simp only [candidateDates] at h
    cases h
    cases hs
  | cons d ds ih =>
    intro l h s hs
    match d with
    | Json.null => exact Except.noConfusion h
    | Json.bool b => exact Except.noConfusion h
    | Json.num n => exact Except.noConfusion h
    | Json.str s2 => exact Except.noConfusion h
    | Json.arr xs => exact Except.noConfusion h
    | Json.obj kvs =>
      simp only [candidateDates] at h
      by_cases ht : truthy (Json.getD (Json.obj kvs) "date" Json.null) = true
      case neg =>
        rw [if_neg ht] at h
        obtain ⟨hparse, j, hj, hjd⟩ := ih l h s hs
        exact ⟨hparse, j, List.mem_cons_of_mem _ hj, hjd⟩
      case pos =>
        rw [if_pos ht] at h
        have hdate : ∃ j ∈ Json.obj kvs :: ds,
            Json.find? j "date" = some (Json.getD (Json.obj kvs) "date" Json.null) :=
          ⟨Json.obj kvs, List.mem_cons_self _ _,
            find?_eq_of_truthy_getD (Json.obj kvs) "date" ht⟩
        split at h
        case h_2 =>
          exact Except.noConfusion h
        case h_1 s2 heq =>
          rw [heq] at hdate
          split at h
          case h_2 => exact Except.noConfusion h
          case h_1 ymd hp =>
            cases hr : candidateDates ds with
            | error e =>
              rw [hr] at h
              simp only [Bind.bind, Except.bind] at h
              exact Except.noConfusion h
            | ok rest =>
              rw [hr] at h
              simp only [Bind.bind, Except.bind] at h
              by_cases hw : pyWeekday ymd.1 ymd.2.1 ymd.2.2 ∈ TARGET_WEEKDAYS
              · rw [if_pos hw] at h
                cases h
                cases hs with
                | head =>
                  exact ⟨⟨ymd.1, ymd.2.1, ymd.2.2, hp, hw⟩, hdate⟩
                | tail _ hs2 =>
                  obtain ⟨hparse, j, hj, hjd⟩ := ih rest hr s hs2
                  exact ⟨hparse, j, List.mem_cons_of_mem _ hj, hjd⟩
              · rw [if_neg hw] at h
                cases h
                obtain ⟨hparse, j, hj, hjd⟩ := ih _ hr s hs
                exact ⟨hparse, j, List.mem_cons_of_mem _ hj, hjd⟩

/-- The scan once enumeration has produced candidate dates: always a
success, with the data dict keyed by the candidate dates mapped to their
probe slot lists, and the errors dict collecting the truthy probe errors. -/
theorem scanMonthWithDiag_eq (prov : Provider) (cfg : List (String × String))
    (month year fuel : Nat) (dss : List String)
    (h : dateStrsOf prov cfg month year = Except.ok dss) :
    scanMonthWithDiag prov cfg month year fuel =
      Except.ok
        (buildDict (dss.map (fun s => (s, probeTs prov cfg fuel s))),
         buildDict (dss.filterMap (fun s =>
           match probeErr prov cfg fuel s with
           | some e => if e = "" then none else some (s, e)
           | none => none))) := by
  have hfst : ∀ s, (fetchTimeslotsWithRetry (respFor prov cfg s) s fuel).1 = s :=
    fun s => probeLoopAux_fst (respFor prov cfg s) s fuel 0 none
  unfold scanMonthWithDiag
  rw [h]
  simp only [Bind.bind, Except.bind]
  congr 1
  refine Prod.ext_iff.mpr ⟨?_, ?_⟩
  · rw [List.map_map]
    refine congrArg buildDict (List.map_congr_left ?_)
    intro s _
    simp only [Function.comp]
    rw [Prod.ext_iff]
    exact ⟨hfst s, rfl⟩
  · rw [List.filterMap_map]
    refine congrArg buildDict (List.filterMap_congr ?_)
    intro s _
    simp only [Function.comp, probeErr, probeResult]
    cases hp : (fetchTimeslotsWithRetry (respFor prov cfg s) s fuel).2.2 with
    | none => rfl
    | some e => simp only [hfst s]

/-! ### Field surgery: changing one field of a product -/

theorem setField_obj (k : String) (v : Json) (kvs : List (String × Json)) :
    ∃ kvs2, setField k v (Json.obj kvs) = Json.obj kvs2 :=
  ⟨_, rfl⟩

theorem find?_map_replace (k k2 : String) (v : Json) (hne : k2 ≠ k) :
    ∀ kvs : List (String × Json),
      (kvs.map (fun kv => if kv.1 = k then (k, v) else kv)).find?
          (fun kv => kv.1 = k2)
        = kvs.find? (fun kv => kv.1 = k2) := by
  intro kvs
  induction kvs with
  | nil => rfl
  | cons kv kvs ih =>
    rw [List.map_cons]
    by_cases hk : kv.1 = k
    · rw [if_pos hk]
      rw [List.find?_cons_of_neg _ (by simp [Ne.symm hne]),
          List.find?_cons_of_neg _ (by simp [hk, Ne.symm hne]), ih]
    · rw [if_neg hk]
      by_cases h2 : kv.1 = k2
      · rw [List.find?_cons_of_pos _ (by simp [h2]),
            List.find?_cons_of_pos _ (by simp [h2])]
      · rw [List.find?_cons_of_neg _ (by simp [h2]),
            List.find?_cons_of_neg _ (by simp [h2]), ih]

theorem find?_append_single_ne (k k2 : String) (v : Json) (hne : k2 ≠ k) :
    ∀ kvs : List (String × Json),
      (kvs ++ [(k, v)]).find? (fun kv => kv.1 = k2)
        = kvs.find? (fun kv => kv.1 = k2) := by
  intro kvs
  induction kvs with
  | nil =>
    rw [List.nil_append]
    rw [List.find?_cons_of_neg _ (by simp [Ne.symm hne])]
  | cons kv kvs ih =>
    rw [List.cons_append]
    by_cases h2 : kv.1 = k2
    · rw [List.find?_cons_of_pos _ (by simp [h2]),
          List.find?_cons_of_pos _ (by simp [h2])]
    · rw [List.find?_cons_of_neg _ (by simp [h2]),
          List.find?_cons_of_neg _ (by simp [h2]), ih]

theorem find?_setField_ne (p : Json) (k k2 : String) (v : Json) (hne : k2 ≠ k) :
    Json.find? (setField k v p) k2 = Json.find? p k2 := by
  cases p with
  | obj kvs =>
    show Json.find? (Json.obj (if kvs.any (fun kv => kv.1 = k) then
        kvs.map (fun kv => if kv.1 = k then (k, v) else kv)
      else kvs ++ [(k, v)])) k2 = Json.find? (Json.obj kvs) k2
    by_cases ha : kvs.any (fun kv => kv.1 = k) = true
    · rw [if_pos ha]
      show ((kvs.map (fun kv => if kv.1 = k then (k, v) else kv)).find?
          (fun kv => kv.1 = k2)).map (fun kv => kv.2)
        = (kvs.find? (fun kv => kv.1 = k2)).map (fun kv => kv.2)
      rw [find?_map_replace k k2 v hne kvs]
    · rw [if_neg ha]
      show ((kvs ++ [(k, v)]).find? (fun kv => kv.1 = k2)).map (fun kv => kv.2)
        = (kvs.find? (fun kv => kv.1 = k2)).map (fun kv => kv.2)
      rw [find?_append_single_ne k k2 v hne kvs]
  | null => rfl
  | bool b => rfl
  | num n => rfl
  | str s => rfl
  | arr xs => rfl

theorem getTime_setField_available (p v : Json) :
    getTime (setField "available" v p) = getTime p := by
  unfold getTime Json.getD
  rw [find?_setField_ne p "available" "time" v (by decide),
      find?_setField_ne p "available" "startTime" v (by decide),
      find?_setField_ne p "available" "start_time" v (by decide)]

theorem collectTimes_setAvail (v : Json) :
    ∀ ps : List Json,
      collectTimes (ps.map (setField "available" v)) = collectTimes ps := by
  intro ps
  induction ps with
  | nil => rfl
  | cons p ps ih =>
    rw [List.map_cons]
    cases p with
    | obj kvs =>
      obtain ⟨kvs2, h2⟩ := setField_obj "available" v kvs
      rw [h2]
      simp only [collectTimes]
      rw [ih]
      have hg : getTime (Json.obj kvs2) = getTime (Json.obj kvs) := by
        rw [← h2]
        exact getTime_setField_available (Json.obj kvs) v
      rw [hg]
    | null => rfl
    | bool b => rfl
    | num n => rfl
    | str s => rfl
    | arr xs => rfl

/-! ### Claims -/

/-- C1 counterexample: on the Scenario B ticket.list response, whose
second product reports remaining capacity 0, the prober keeps both time
slots: the returned slot list is not the claimed singleton 09:00. -/
theorem c1_counterexample :
    fetchTimeslotsWithRetry (respFor provB DDV_CONFIG "2025-03-03") "2025-03-03" 1
      = ("2025-03-03", ["09:00", "10:00"], none) ∧
    (["09:00", "10:00"] : List String) ≠ ["09:00"] := by
  exact ⟨rfl, by decide⟩

/-- C1 amended: the prober keeps every product whose time alias chain
(time, startTime, start_time) yields a truthy value, never consulting
the capacity field: replacing every available field by an arbitrary
value leaves the collected slot times unchanged, and the Scenario B
response yields both 09:00 and 10:00. -/
theorem c1_amended_capacity_ignored :
    (∀ (ps : List Json) (v : Json),
      collectTimes (ps.map (setField "available" v)) = collectTimes ps) ∧
    fetchTimeslotsWithRetry (respFor provB DDV_CONFIG "2025-03-03") "2025-03-03" 1
      = ("2025-03-03", ["09:00", "10:00"], none) := by
  exact ⟨fun ps v => collectTimes_setAvail v ps, rfl⟩

/-- C2 counterexample: with the enumerator provider call rejected with
HTTP 500, scan_month returns the very same plain empty mapping as a
provider that successfully reports zero active dates: the returned value
carries no annotation that could distinguish the two cases. -/
theorem c2_counterexample :
    scanMonth prov500 DDV_CONFIG 3 2025 2 = Except.ok [] ∧
    scanMonth provEmptyDates DDV_CONFIG 3 2025 2 = Except.ok [] ∧
    scanMonth prov500 DDV_CONFIG 3 2025 2
      = scanMonth provEmptyDates DDV_CONFIG 3 2025 2 := by
  exact ⟨rfl, rfl, rfl⟩

/-- C2 amended: when the date-list call fails (HTTP at least 400, or a
transport exception), the scan still completes normally and returns an
empty mapping with empty diagnostics: no exception escapes, but nothing
in the returned value records the enumeration failure. -/
theorem c2_amended_enumeration_failure_silent
    (probes : String → Nat → WireResult) (cfg : List (String × String))
    (month year fuel : Nat) (r : HttpResponse) (msg : String)
    (h : 400 ≤ r.status) :
    scanMonthWithDiag ⟨WireResult.resp r, probes⟩ cfg month year fuel
        = Except.ok ([], []) ∧
    scanMonthWithDiag ⟨WireResult.netError msg, probes⟩ cfg month year fuel
        = Except.ok ([], []) := by
  constructor
  · have hcore : apiPostCore (WireResult.resp r) (dateListForm cfg month year)
        = errObj (statusErrMsg r.status) (dateListForm cfg month year) := by
      simp only [apiPostCore]
      rw [if_pos h]
    unfold scanMonthWithDiag dateStrsOf datesOf fetchDateList
    rw [hcore]
    rfl
  · rfl

/-- C2 amended witness at concrete inputs. -/
theorem c2_amended_witness :
    scanMonthWithDiag ⟨WireResult.resp ⟨500, none, none⟩,
        fun _ _ => WireResult.netError "x"⟩ DDV_CONFIG 3 2025 2
      = Except.ok ([], []) ∧
    scanMonthWithDiag ⟨WireResult.netError "boom",
        fun _ _ => WireResult.netError "x"⟩ DDV_CONFIG 3 2025 2
      = Except.ok ([], []) :=
  c2_amended_enumeration_failure_silent (fun _ _ => WireResult.netError "x")
    DDV_CONFIG 3 2025 2 ⟨500, none, none⟩ "boom" (by decide)

/-- C3 counterexample: a POST rejected with 403 while a second POST
would succeed: api_post issues exactly one POST, not two, and returns
the error sentinel instead of a reduced-header retry result; moreover
the client header set never contained an Accept-Language entry to drop. -/
theorem c3_counterexample :
    apiPost c3wires (ticketListForm DDV_CONFIG "2025-03-03")
      = (errObj (statusErrMsg 403) (ticketListForm DDV_CONFIG "2025-03-03"), 1) ∧
    (1 : Nat) ≠ 2 ∧
    clientHeaders.any (fun kv => kv.1 = "Accept-Language") = false := by
  exact ⟨rfl, by decide, by decide⟩

/-- C3 amended: the transport layer performs no retry at all: every
api_post call issues exactly one POST under the one fixed header set,
and a response with status at least 400 immediately becomes the
error-sentinel dict. -/
theorem c3_amended_no_transport_retry (wires : Nat → WireResult)
    (form : List (String × String)) (r : HttpResponse)
    (h0 : wires 0 = WireResult.resp r) (h4 : 400 ≤ r.status) :
    apiPost wires form = (errObj (statusErrMsg r.status) form, 1) := by
  unfold apiPost
  rw [h0]
  simp only [apiPostCore]
  rw [if_pos h4]

/-- C3 amended witness at concrete inputs. -/
theorem c3_amended_witness :
    apiPost (fun _ => WireResult.resp ⟨500, none, none⟩) DDV_CONFIG
      = (errObj (statusErrMsg 500) DDV_CONFIG, 1) :=
  c3_amended_no_transport_retry (fun _ => WireResult.resp ⟨500, none, none⟩)
    DDV_CONFIG ⟨500, none, none⟩ rfl (by decide)

/-- C4: every date key of a successful scan result parses as a calendar
date whose derived weekday lies in TARGET_WEEKDAYS, and stems from an
element of the provider active-date list carrying exactly that date
string; a date absent from that list can never be a key. -/
theorem c4_scan_keys_weekday_and_provider
    (prov : Provider) (cfg : List (String × String)) (month year fuel : Nat)
    (data : List (String × List String)) (errors : List (String × String))
    (h : scanMonthWithDiag prov cfg month year fuel = Except.ok (data, errors))
    (d : String) (ts : List String) (hmem : (d, ts) ∈ data) :
    (∃ y m dd, parseYMD d = some (y, m, dd) ∧
      pyWeekday y m dd ∈ TARGET_WEEKDAYS) ∧
    ∃ djs, datesOf prov cfg month year = Except.ok djs ∧
      ∃ j ∈ djs, Json.find? j "date" = some (Json.str d) := by
  cases hds : dateStrsOf prov cfg month year with
  | error e =>
    unfold scanMonthWithDiag at h
    rw [hds] at h
    simp only [Bind.bind, Except.bind] at h
    exact Except.noConfusion h
  | ok dss =>
    have heq := scanMonthWithDiag_eq prov cfg month year fuel dss hds
    rw [heq] at h
    injection h with h2
    have hfst := congrArg Prod.fst h2
    simp only at hfst
    rw [← hfst] at hmem
    have hkey : d ∈ (buildDict (dss.map
        (fun s => (s, probeTs prov cfg fuel s)))).map (fun kv => kv.1) :=
      List.mem_map.2 ⟨(d, ts), hmem, rfl⟩
    have hkey2 := (buildDict_mem_keys _ d).1 hkey
    rw [List.map_map] at hkey2
    have hd : d ∈ dss := by simpa using hkey2
    unfold dateStrsOf at hds
    cases hdo : datesOf prov cfg month year with
    | error e =>
      rw [hdo] at hds
      simp only [Bind.bind, Except.bind] at hds
      exact Except.noConfusion hds
    | ok djs =>
      rw [hdo] at hds
      simp only [Bind.bind, Except.bind] at hds
      obtain ⟨hparse, j, hj, hjd⟩ := candidateDates_mem djs dss hds d hd
      exact ⟨hparse, djs, rfl, j, hj, hjd⟩

/-- C4 witness at concrete inputs. -/
theorem c4_witness :
    (∃ y m dd, parseYMD "2025-03-03" = some (y, m, dd) ∧
      pyWeekday y m dd ∈ TARGET_WEEKDAYS) ∧
    ∃ djs, datesOf provDup DDV_CONFIG 3 2025 = Except.ok djs ∧
      ∃ j ∈ djs, Json.find? j "date" = some (Json.str "2025-03-03") :=
  c4_scan_keys_weekday_and_provider provDup DDV_CONFIG 3 2025 1
    [("2025-03-05", ["09:00", "10:00"]), ("2025-03-03", ["09:00", "10:00"])] []
    (by rfl) "2025-03-03" ["09:00", "10:00"]
    (List.mem_cons_of_mem _ (List.mem_cons_self _ _))

/-- C5: the first attempt whose api_post result parses successfully
terminates the retry loop at once: the probe returns that attempt as its
answer with no error mark, having consumed exactly k plus one attempts,
also when the extracted slot list is empty. -/
theorem c5_first_success_stops (resp : Nat → Json) (dateStr : String)
    (fuel k : Nat) (ts : List String)
    (hk : k < fuel)
    (hfail : ∀ i, i < k → ∃ e, attemptOnce (resp i) = Except.error e)
    (hsucc : attemptOnce (resp k) = Except.ok ts) :
    fetchTimeslotsWithRetry resp dateStr fuel = (dateStr, ts, none) ∧
    probeAttempts resp dateStr fuel = k + 1 := by
  have hfail0 : ∀ i, i < k → ∃ e, attemptOnce (resp (0 + i)) = Except.error e := by
    intro i hi
    simpa using hfail i hi
  have hsucc0 : attemptOnce (resp (0 + k)) = Except.ok ts := by simpa using hsucc
  have h := probeLoopAux_first_success resp dateStr ts k fuel 0 none hk hfail0 hsucc0
  unfold fetchTimeslotsWithRetry probeAttempts
  rw [h]
  exact ⟨rfl, by simp⟩

/-- C5 witness: a failing first attempt, then an empty but successful
response: the probe stops after two attempts with an empty slot list and
no error. -/
theorem c5_witness :
    fetchTimeslotsWithRetry c5resp "2025-03-04" 5 = ("2025-03-04", [], none) ∧
    probeAttempts c5resp "2025-03-04" 5 = 1 + 1 :=
  c5_first_success_stops c5resp "2025-03-04" 5 1 [] (by decide)
    (by
      intro i hi
      have hz : i = 0 := by omega
      subst hz
      exact ⟨"boom", rfl⟩)
    (by rfl)

/-- C6: once enumeration has produced the candidate dates, the scan
always completes: every candidate date is a key of the data dict, mapped
to its probe slot times; a probe that ended with an error mark (timed
out) contributes an empty slot list; and the diagnostics dict has an
entry for a candidate date exactly when its probe ended with an error
mark, so a timeout remains distinguishable from a zero-slot success. -/
theorem c6_probe_failure_never_drops_date
    (prov : Provider) (cfg : List (String × String)) (month year fuel : Nat)
    (dss : List String)
    (h : dateStrsOf prov cfg month year = Except.ok dss)
    (s : String) (hs : s ∈ dss) :
    ∃ data errors,
      scanMonthWithDiag prov cfg month year fuel = Except.ok (data, errors) ∧
      (s, probeTs prov cfg fuel s) ∈ data ∧
      (probeErr prov cfg fuel s ≠ none → probeTs prov cfg fuel s = []) ∧
      (errors.any (fun kv => kv.1 = s) = true ↔
        probeErr prov cfg fuel s ≠ none) := by
  refine ⟨_, _, scanMonthWithDiag_eq prov cfg month year fuel dss h, ?_, ?_, ?_⟩
  · refine buildDict_mem_fun (fun s2 => probeTs prov cfg fuel s2) _ ?_ s ?_
    · intro kv hkv
      obtain ⟨x, _, hxe⟩ := List.mem_map.1 hkv
      rw [← hxe]
    · rw [List.map_map]
      simpa using hs
  · intro hne
    exact probeLoopAux_err_times (respFor prov cfg s) s fuel 0 none hne
  · constructor
    · intro ha
      have hmem := (mem_map_fst_iff_any _ s).2 ha
      have hm2 := (buildDict_mem_keys _ s).1 hmem
      obtain ⟨x, hx, hxe⟩ := List.mem_map.1 hm2
      obtain ⟨s2, _, hgs2⟩ := List.mem_filterMap.1 hx
      cases hpe : probeErr prov cfg fuel s2 with
      | none =>
        simp only [hpe] at hgs2
        exact Option.noConfusion hgs2
      | some e =>
        simp only [hpe] at hgs2
        by_cases he : e = ""
        · rw [if_pos he] at hgs2
          exact Option.noConfusion hgs2
        · rw [if_neg he] at hgs2
          have hx2 : x = (s2, e) := (Option.some.inj hgs2).symm
          rw [hx2] at hxe
          simp only at hxe
          rw [← hxe, hpe]
          simp
    · intro hne
      cases hpe : probeErr prov cfg fuel s with
      | none => exact absurd hpe hne
      | some e =>
        have hene : e ≠ "" :=
          probeLoopAux_err_ne_empty (respFor prov cfg s) s fuel 0 none e hpe
        apply (mem_map_fst_iff_any _ s).1
        apply (buildDict_mem_keys _ s).2
        apply List.mem_map.2
        refine ⟨(s, e), ?_, rfl⟩
        apply List.mem_filterMap.2
        refine ⟨s, hs, ?_⟩
        simp only [hpe, if_neg hene]

/-- C6 witness at concrete inputs, with a probe that times out. -/
theorem c6_witness :
    ∃ data errors,
      scanMonthWithDiag provTimeout DDV_CONFIG 3 2025 2
        = Except.ok (data, errors) ∧
      ("2025-03-03", probeTs provTimeout DDV_CONFIG 2 "2025-03-03") ∈ data ∧
      (probeErr provTimeout DDV_CONFIG 2 "2025-03-03" ≠ none →
        probeTs provTimeout DDV_CONFIG 2 "2025-03-03" = []) ∧
      (errors.any (fun kv => kv.1 = "2025-03-03") = true ↔
        probeErr provTimeout DDV_CONFIG 2 "2025-03-03" ≠ none) :=
  c6_probe_failure_never_drops_date provTimeout DDV_CONFIG 3 2025 2
    ["2025-03-03"] (by rfl) "2025-03-03" (List.mem_cons_self _ _)

/-- C7 counterexample: the same two active dates delivered as an object
list produce a normal scan result, while the bare string-list shape
crashes the date loop with an attribute error instead of being
normalized to the same candidate dates. -/
theorem c7_counterexample :
    scanMonth provBareDates DDV_CONFIG 3 2025 2 = Except.error "AttributeError" ∧
    scanMonth provObjDates DDV_CONFIG 3 2025 2
      = Except.ok [("2025-03-03", []), ("2025-03-05", [])] ∧
    (Except.error "AttributeError" : Except String (List (String × List String)))
      ≠ Except.ok [("2025-03-03", []), ("2025-03-05", [])] := by
  refine ⟨rfl, rfl, ?_⟩
  intro hc
  exact Except.noConfusion hc

/-- C7 amended: only the object-list shape is normalized: an active-date
list starting with a bare date string makes the date loop raise an
attribute error, while the object-list shape enumerates normally, so the
two shapes do not produce the same candidate dates. -/
theorem c7_amended_bare_shape_raises :
    (∀ (s : String) (rest : List Json),
      candidateDates (Json.str s :: rest) = Except.error "AttributeError") ∧
    candidateDates [mkDateObj "2025-03-03", mkDateObj "2025-03-05"]
      = Except.ok ["2025-03-03", "2025-03-05"] := by
  exact ⟨fun s rest => rfl, rfl⟩

/-- C8 counterexample: a provider response repeating a date and listing
dates out of order: the candidate-date sequence keeps provider order and
the duplicate, and the result keys keep provider order, in both cases
differing from the claimed sorted deduplicated sequence. -/
theorem c8_counterexample :
    dateStrsOf provDup DDV_CONFIG 3 2025
      = Except.ok ["2025-03-05", "2025-03-03", "2025-03-03"] ∧
    (["2025-03-05", "2025-03-03", "2025-03-03"] : List String)
      ≠ ["2025-03-03", "2025-03-05"] ∧
    (scanMonth provDup DDV_CONFIG 3 2025 1).map (fun l => l.map (fun kv => kv.1))
      = Except.ok ["2025-03-05", "2025-03-03"] ∧
    (["2025-03-05", "2025-03-03"] : List String) ≠ ["2025-03-03", "2025-03-05"] := by
  exact ⟨rfl, by decide, rfl, by decide⟩

/-- C8 amended: enumeration preserves the provider response order with
duplicates intact, and the result dict carries one key per distinct
candidate date in first-occurrence order (dict keying collapses
repeats); no ascending re-sort happens inside the scan. -/
theorem c8_amended_keys_first_occurrence
    (prov : Provider) (cfg : List (String × String)) (month year fuel : Nat)
    (dss : List String)
    (h : dateStrsOf prov cfg month year = Except.ok dss) :
    ∃ data errors,
      scanMonthWithDiag prov cfg month year fuel = Except.ok (data, errors) ∧
      data.map (fun kv => kv.1) = pyKeys dss := by
  refine ⟨_, _, scanMonthWithDiag_eq prov cfg month year fuel dss h, ?_⟩
  rw [buildDict_map_fst, List.map_map]
  congr 1
  show List.map id dss = dss
  exact List.map_id dss

/-- C8 amended witness at concrete inputs. -/
theorem c8_amended_witness :
    ∃ data errors,
      scanMonthWithDiag provDup DDV_CONFIG 3 2025 1 = Except.ok (data, errors) ∧
      data.map (fun kv => kv.1)
        = pyKeys ["2025-03-05", "2025-03-03", "2025-03-03"] :=
  c8_amended_keys_first_occurrence provDup DDV_CONFIG 3 2025 1
    ["2025-03-05", "2025-03-03", "2025-03-03"] (by rfl)

/-- C10: the diagnostics dict of a scan has an entry for a date exactly
when that date is a candidate whose probe never obtained a successfully
parsed attempt within its budget; a probe with any successful attempt
reports no error at all, discarding earlier transient reasons; and a
probe whose budget admits no attempt reports the fixed reason timeout. -/
theorem c10_error_map_iff_no_success
    (prov : Provider) (cfg : List (String × String)) (month year fuel : Nat)
    (dss : List String) (data : List (String × List String))
    (errors : List (String × String))
    (h : dateStrsOf prov cfg month year = Except.ok dss)
    (hscan : scanMonthWithDiag prov cfg month year fuel = Except.ok (data, errors)) :
    (∀ s, errors.any (fun kv => kv.1 = s) = true ↔
      (s ∈ dss ∧ probeErr prov cfg fuel s ≠ none)) ∧
    (∀ s, probeErr prov cfg fuel s = none ↔
      ∃ k, k < fuel ∧ ∃ ts, attemptOnce (respFor prov cfg s k) = Except.ok ts) ∧
    (∀ s, fetchTimeslotsWithRetry (respFor prov cfg s) s 0
      = (s, [], some "timeout")) := by
  have heq := scanMonthWithDiag_eq prov cfg month year fuel dss h
  rw [heq] at hscan
  injection hscan with h2
  have hsnd := congrArg Prod.snd h2
  simp only at hsnd
  refine ⟨?_, ?_, ?_⟩
  · intro s
    rw [← hsnd]
    constructor
    · intro ha
      have hmem := (mem_map_fst_iff_any _ s).2 ha
      have hm2 := (buildDict_mem_keys _ s).1 hmem
      obtain ⟨x, hx, hxe⟩ := List.mem_map.1 hm2
      obtain ⟨s2, hs2, hgs2⟩ := List.mem_filterMap.1 hx
      cases hpe : probeErr prov cfg fuel s2 with
      | none =>
        simp only [hpe] at hgs2
        exact Option.noConfusion hgs2
      | some e =>
        simp only [hpe] at hgs2
        by_cases he : e = ""
        · rw [if_pos he] at hgs2
          exact Option.noConfusion hgs2
        · rw [if_neg he] at hgs2
          have hx2 : x = (s2, e) := (Option.some.inj hgs2).symm
          rw [hx2] at hxe
          simp only at hxe
          rw [← hxe]
          refine ⟨hs2, ?_⟩
          rw [hpe]
          simp
    · rintro ⟨hsm, hne⟩
      cases hpe : probeErr prov cfg fuel s with
      | none => exact absurd hpe hne
      | some e =>
        have hene : e ≠ "" :=
          probeLoopAux_err_ne_empty (respFor prov cfg s) s fuel 0 none e hpe
        apply (mem_map_fst_iff_any _ s).1
        apply (buildDict_mem_keys _ s).2
        apply List.mem_map.2
        refine ⟨(s, e), ?_, rfl⟩
        apply List.mem_filterMap.2
        refine ⟨s, hsm, ?_⟩
        simp only [hpe, if_neg hene]
  · intro s
    unfold probeErr probeResult fetchTimeslotsWithRetry
    rw [probeLoopAux_none_iff (respFor prov cfg s) s fuel 0 none]
    constructor
    · rintro ⟨i, hi, ts, hts⟩
      exact ⟨i, hi, ts, by simpa using hts⟩
    · rintro ⟨i, hi, ts, hts⟩
      exact ⟨i, hi, ts, by simpa using hts⟩
  · intro s
    rfl

/-- C10 witness at concrete inputs, with a probe that never succeeds. -/
theorem c10_witness :
    (∀ s, ([("2025-03-03", statusErrMsg 403)] :
        List (String × String)).any (fun kv => kv.1 = s) = true ↔
      (s ∈ ["2025-03-03"] ∧ probeErr provTimeout DDV_CONFIG 2 s ≠ none)) ∧
    (∀ s, probeErr provTimeout DDV_CONFIG 2 s = none ↔
      ∃ k, k < 2 ∧ ∃ ts,
        attemptOnce (respFor provTimeout DDV_CONFIG s k) = Except.ok ts) ∧
    (∀ s, fetchTimeslotsWithRetry (respFor provTimeout DDV_CONFIG s) s 0
      = (s, [], some "timeout")) :=
  c10_error_map_iff_no_success provTimeout DDV_CONFIG 3 2025 2
    ["2025-03-03"] [("2025-03-03", [])] [("2025-03-03", statusErrMsg 403)]
    (by rfl) (by rfl)

end Ddv
